import Mathlib

/-!
Verification of the Kubernetes pod resource-limits checker
(`k8s_pod_limits_checker.py`).

The development shallowly embeds the program:

* the workload snapshot (pods with containers and an optional
  resource-limits mapping) as inductive data; the limits mapping is an
  association list of string keys to string values, mirroring the
  Kubernetes client's `Dict[str, str]` (values are always strings there,
  so `limits.get(k) is None` holds exactly when the key `k` is absent);
* the Evaluator `get_containers_with_missing_limits` as a pure function
  from a snapshot to a list of `ContainerLimitIssue` records, with the
  fallible listing call modelled as an `Except` input;
* the Annotator `annotate_pod` / `annotate_pods_with_issues` with the
  cluster patch call modelled as an oracle `String → String → Bool`
  (whether the patch on a given namespace/pod succeeds) and with the
  attempted patch calls recorded explicitly;
* the three output formatters as pure string functions, including a
  model of `json.dumps(..., indent=2)` for the flat records produced;
* `main` as a function of an environment describing the outcomes of the
  two credential-loading strategies, the listing call and the patches.
-/

namespace PodChecker

/-- One entry of a container's resource-limits mapping:
a resource kind (`"cpu"`, `"memory"`, ...) paired with its value string. -/
abbrev LimitEntry := String × String

/-- Model of `V1ResourceRequirements`: the container's `resources` block; only the
`limits` mapping is consulted by the program.  `none` models a `null`
limits block. -/
structure ResourceRequirements where
  limits : Option (List LimitEntry)
deriving DecidableEq, Repr

/-- A container of a pod: its name and optional `resources` block. -/
structure Container where
  name : String
  resources : Option ResourceRequirements
deriving DecidableEq, Repr

/-- Pod metadata: owning namespace and pod name. -/
structure ObjectMeta where
  «namespace» : String
  name : String
deriving DecidableEq, Repr

/-- Pod spec: the ordered list of containers. -/
structure PodSpec where
  containers : List Container
deriving DecidableEq, Repr

/-- A pod of the workload snapshot. -/
structure Pod where
  metadata : ObjectMeta
  spec : PodSpec
deriving DecidableEq, Repr

/-- A Finding — the `ContainerLimitIssue` dataclass: a container with a missing CPU
and/or memory limit (the dataclass of the source, same five fields). -/
structure ContainerLimitIssue where
  «namespace» : String
  pod_name : String
  container_name : String
  missing_cpu_limit : Bool
  missing_memory_limit : Bool
deriving DecidableEq, Repr

/-- Python `limits.get(key)` on the limits dictionary: the value stored
under `key`, or `none` when the key is absent. -/
def dictGet (d : List LimitEntry) (key : String) : Option String :=
  (d.find? (fun kv => kv.1 == key)).map (fun kv => kv.2)

/-- Python `limits = resources.limits if resources else None`. -/
def containerLimits (c : Container) : Option (List LimitEntry) :=
  match c.resources with
  | some r => r.limits
  | none => none

/-- Python `missing_cpu = limits is None or limits.get("cpu") is None`. -/
def containerMissingCpu (c : Container) : Bool :=
  match containerLimits c with
  | none => true
  | some d => (dictGet d "cpu").isNone

/-- Python `missing_memory = limits is None or limits.get("memory") is None`. -/
def containerMissingMemory (c : Container) : Bool :=
  match containerLimits c with
  | none => true
  | some d => (dictGet d "memory").isNone

/-- The per-container body of the Evaluator's loop: emit a Finding when
at least one limit is missing, recording both booleans. -/
def checkContainer (ns pn : String) (c : Container) : Option ContainerLimitIssue :=
  if containerMissingCpu c || containerMissingMemory c then
    some ⟨ns, pn, c.name, containerMissingCpu c, containerMissingMemory c⟩
  else
    none

/-- The Evaluator `get_containers_with_missing_limits` on an obtained
snapshot: the nested `for pod ... for container ...` loops appending an
issue whenever the filter condition holds. -/
def get_containers_with_missing_limits (pods : List Pod) : List ContainerLimitIssue :=
  pods.flatMap (fun pod =>
    pod.spec.containers.filterMap
      (checkContainer pod.metadata.«namespace» pod.metadata.name))

/-- The whole method including its `try/except`: when the listing call
raises (`ApiException` or any other exception) the method logs and
returns the empty list. -/
def get_containers_with_missing_limits_run
    (listResult : Except String (List Pod)) : List ContainerLimitIssue :=
  match listResult with
  | .ok pods => get_containers_with_missing_limits pods
  | .error _ => []

/-- The Finding the Evaluator builds for container `c` of pod `p`. -/
def issueOf (p : Pod) (c : Container) : ContainerLimitIssue :=
  ⟨p.metadata.«namespace», p.metadata.name, c.name,
    containerMissingCpu c, containerMissingMemory c⟩

/-- The (namespace, pod name, container name) key triple of a Finding. -/
def issueKey (i : ContainerLimitIssue) : String × String × String :=
  (i.«namespace», i.pod_name, i.container_name)

/-- The nested iteration order of the snapshot, as key triples. -/
def snapshotKeys (pods : List Pod) : List (String × String × String) :=
  pods.flatMap (fun p =>
    p.spec.containers.map (fun c => (p.metadata.«namespace», p.metadata.name, c.name)))

/-! ### Annotator -/

/-- The aggregate per-pod record built by `annotate_pods_with_issues`:
the dictionary value stored under the grouping key. -/
structure PodInfo where
  «namespace» : String
  pod_name : String
  missing_cpu : Bool
  missing_memory : Bool
deriving DecidableEq

/-- The grouping key `f"\x7bissue.namespace\x7d/\x7bissue.pod_name\x7d"`. -/
def pod_key (i : ContainerLimitIssue) : String :=
  i.«namespace» ++ "/" ++ i.pod_name

/-- The (namespace, pod_name) pair of a Finding. -/
def pairOf (i : ContainerLimitIssue) : String × String :=
  (i.«namespace», i.pod_name)

/-- The grouping key as a function of the (namespace, pod_name) pair. -/
def keyOfPair (p : String × String) : String :=
  p.1 ++ "/" ++ p.2

/-- The fresh record created when a pod key is first seen:
both booleans start `False`. -/
def freshInfo (i : ContainerLimitIssue) : PodInfo :=
  ⟨i.«namespace», i.pod_name, false, false⟩

/-- The per-issue update of a pod's record: set a flag when the issue's
corresponding flag is set (equivalently, OR the issue's flags in). -/
def updateInfo (i : ContainerLimitIssue) (info : PodInfo) : PodInfo :=
  { info with
      missing_cpu := info.missing_cpu || i.missing_cpu_limit,
      missing_memory := info.missing_memory || i.missing_memory_limit }

/-- One iteration of the grouping loop of `annotate_pods_with_issues`:
create the entry if the key is new (insertion order preserved, as for a
Python dictionary), then apply the issue's flags to it. -/
def insertIssue (acc : List (String × PodInfo)) (i : ContainerLimitIssue) :
    List (String × PodInfo) :=
  if acc.any (fun e => e.1 == pod_key i) then
    acc.map (fun e => if e.1 == pod_key i then (e.1, updateInfo i e.2) else e)
  else
    acc ++ [(pod_key i, updateInfo i (freshInfo i))]

/-- The `pods_to_annotate` dictionary, as an insertion-ordered
association list. -/
def group_issues (issues : List ContainerLimitIssue) : List (String × PodInfo) :=
  issues.foldl insertIssue []

/-- A record of one attempted `patch_namespaced_pod` call: the target
pod and the value stored under the `warning` annotation key. -/
structure PatchCall where
  «namespace» : String
  pod_name : String
  value : String
deriving DecidableEq

/-- The (namespace, pod_name) pair a patch call targets. -/
def callPair (pc : PatchCall) : String × String :=
  (pc.«namespace», pc.pod_name)

/-- The value chosen for the `warning` annotation by `annotate_pod`'s
if/elif chain; `none` models the early `return False` when neither
limit is missing. -/
def warning_value (missing_cpu missing_memory : Bool) : Option String :=
  if missing_cpu && missing_memory then some "no-limits"
  else if missing_cpu then some "no-cpu-limit"
  else if missing_memory then some "no-memory-limit"
  else none

/-- The method `annotate_pod`.  The cluster patch call is modelled by
the oracle `patchOk` (whether patching that pod succeeds; an exception
raised by the call is caught and turns into a `false` return).  The
second component records the patch calls actually attempted. -/
def annotate_pod (patchOk : String → String → Bool) (ns pod_name : String)
    (missing_cpu missing_memory : Bool) : Bool × List PatchCall :=
  match warning_value missing_cpu missing_memory with
  | none => (false, [])
  | some v => (patchOk ns pod_name, [⟨ns, pod_name, v⟩])

/-- One iteration of the annotation loop: bump the success or failure
counter and record the attempted calls. -/
def annotateStep (patchOk : String → String → Bool)
    (acc : (Nat × Nat) × List PatchCall) (e : String × PodInfo) :
    (Nat × Nat) × List PatchCall :=
  (if (annotate_pod patchOk e.2.«namespace» e.2.pod_name e.2.missing_cpu e.2.missing_memory).1
    then (acc.1.1 + 1, acc.1.2)
    else (acc.1.1, acc.1.2 + 1),
   acc.2 ++ (annotate_pod patchOk e.2.«namespace» e.2.pod_name e.2.missing_cpu e.2.missing_memory).2)

/-- The method `annotate_pods_with_issues`: group the Findings by pod
key, then attempt one annotation per group, returning
`(success_count, failure_count)` together with the recorded patch
calls. -/
def annotate_pods_with_issues (patchOk : String → String → Bool)
    (issues : List ContainerLimitIssue) : (Nat × Nat) × List PatchCall :=
  (group_issues issues).foldl (annotateStep patchOk) ((0, 0), [])

/-! ### Output formatters -/

/-- Boolean rendering of the tabular reporter (`"YES" if ... else "NO"`). -/
def tableBool (b : Bool) : String :=
  if b then "YES" else "NO"

/-- Python `str` of a boolean, as interpolated by the CSV f-string. -/
def pyBoolStr (b : Bool) : String :=
  if b then "True" else "False"

/-- JSON rendering of a boolean, as serialized by `json.dumps`. -/
def jsonBool (b : Bool) : String :=
  if b then "true" else "false"

/-- Decoder of the tabular boolean rendering. -/
def decodeTableBool (s : String) : Option Bool :=
  if s = "YES" then some true else if s = "NO" then some false else none

/-- Decoder of the CSV boolean rendering. -/
def decodePyBool (s : String) : Option Bool :=
  if s = "True" then some true else if s = "False" then some false else none

/-- Decoder of the JSON boolean rendering. -/
def decodeJsonBool (s : String) : Option Bool :=
  if s = "true" then some true else if s = "false" then some false else none

/-- Python `max(gen, default=0)` over a list of naturals. -/
def listMax (l : List Nat) : Nat :=
  l.foldl max 0

/-- The table header cells. -/
def headersList : List String :=
  ["NAMESPACE", "POD NAME", "CONTAINER NAME", "MISSING CPU", "MISSING MEMORY"]

/-- The computed column widths of the table: the maximum of a header's
width and the widest value in its column (boolean columns use the
header width only, as in the source). -/
def col_widths (issues : List ContainerLimitIssue) : List Nat :=
  [ max "NAMESPACE".length (listMax (issues.map (fun i => i.«namespace».length))),
    max "POD NAME".length (listMax (issues.map (fun i => i.pod_name.length))),
    max "CONTAINER NAME".length (listMax (issues.map (fun i => i.container_name.length))),
    "MISSING CPU".length,
    "MISSING MEMORY".length ]

/-- Python `f"\x7bval:<\x7bw\x7d\x7d"`: left-justify to width `w` with
spaces (a longer value is left unchanged). -/
def ljust (s : String) (w : Nat) : String :=
  s ++ String.mk (List.replicate (w - s.length) ' ')

/-- The `+---+---+` separator row of the table. -/
def tableSeparator (ws : List Nat) : String :=
  "+" ++ String.intercalate "+" (ws.map (fun w => String.mk (List.replicate (w + 2) '-'))) ++ "+"

/-- One bordered table row from its five cell texts. -/
def tableRow (ws : List Nat) (cells : List String) : String :=
  "| " ++ String.intercalate " | " ((cells.zip ws).map (fun cw => ljust cw.1 cw.2)) ++ " |"

/-- The five cell texts of a Finding's table row. -/
def rowCells (i : ContainerLimitIssue) : List String :=
  [i.«namespace», i.pod_name, i.container_name,
    tableBool i.missing_cpu_limit, tableBool i.missing_memory_limit]

/-- The method `OutputFormatter.format_table`. -/
def format_table (issues : List ContainerLimitIssue) : String :=
  if issues.isEmpty then
    "No containers with missing resource limits found."
  else
    let ws := col_widths issues
    let sep := tableSeparator ws
    String.intercalate "\n"
      ([sep, tableRow ws headersList, sep]
        ++ issues.map (fun i => tableRow ws (rowCells i))
        ++ [sep])

/-- Lower-case hexadecimal digit. -/
def hexDigit (n : Nat) : Char :=
  if n < 10 then Char.ofNat (48 + n) else Char.ofNat (87 + n)

/-- Four lower-case hexadecimal digits of a 16-bit value. -/
def u16hex (n : Nat) : String :=
  String.mk [hexDigit ((n / 4096) % 16), hexDigit ((n / 256) % 16),
    hexDigit ((n / 16) % 16), hexDigit (n % 16)]

/-- Escaping of one character as performed by `json.dumps` with its
default `ensure_ascii=True`: short escapes for the usual control
characters, `\u` escapes (with surrogate pairs beyond the basic plane)
for other control and all non-ASCII characters. -/
def pyJsonEscapeChar (c : Char) : String :=
  if c = '"' then "\\\""
  else if c = '\\' then "\\\\"
  else if c = '\n' then "\\n"
  else if c = '\t' then "\\t"
  else if c = '\r' then "\\r"
  else if c = Char.ofNat 8 then "\\b"
  else if c = Char.ofNat 12 then "\\f"
  else if c.toNat < 32 ∨ c.toNat > 126 then
    if c.toNat < 65536 then
      "\\u" ++ u16hex c.toNat
    else
      "\\u" ++ u16hex (55296 + (c.toNat - 65536) / 1024)
        ++ "\\u" ++ u16hex (56320 + (c.toNat - 65536) % 1024)
  else
    String.mk [c]

/-- A JSON string literal as produced by `json.dumps`. -/
def pyJsonString (s : String) : String :=
  "\"" ++ String.join (s.data.map pyJsonEscapeChar) ++ "\""

/-- One Finding as the object `json.dumps(asdict(issue), ...)` renders
inside the array, at indent level 2 (keys in dataclass field order). -/
def jsonItem (i : ContainerLimitIssue) : String :=
  "  \x7b\n    \"namespace\": " ++ pyJsonString i.«namespace»
    ++ ",\n    \"pod_name\": " ++ pyJsonString i.pod_name
    ++ ",\n    \"container_name\": " ++ pyJsonString i.container_name
    ++ ",\n    \"missing_cpu_limit\": " ++ jsonBool i.missing_cpu_limit
    ++ ",\n    \"missing_memory_limit\": " ++ jsonBool i.missing_memory_limit
    ++ "\n  \x7d"

/-- The method `OutputFormatter.format_json`: `json.dumps([...], indent=2)`, which
renders the empty list as `[]`. -/
def format_json (issues : List ContainerLimitIssue) : String :=
  if issues.isEmpty then "[]"
  else "[\n" ++ String.intercalate ",\n" (issues.map jsonItem) ++ "\n]"

/-- The CSV header line. -/
def csvHeader : String :=
  "NAMESPACE,POD_NAME,CONTAINER_NAME,MISSING_CPU_LIMIT,MISSING_MEMORY_LIMIT"

/-- One CSV data line: every field double-quoted, no further escaping,
booleans via Python `str`. -/
def csvLine (i : ContainerLimitIssue) : String :=
  "\"" ++ i.«namespace» ++ "\",\"" ++ i.pod_name ++ "\",\"" ++ i.container_name
    ++ "\",\"" ++ pyBoolStr i.missing_cpu_limit
    ++ "\",\"" ++ pyBoolStr i.missing_memory_limit ++ "\""

/-- The method `OutputFormatter.format_csv`. -/
def format_csv (issues : List ContainerLimitIssue) : String :=
  String.intercalate "\n" (csvHeader :: issues.map csvLine)

/-! ### The five logical field values carried by each reporter -/

/-- The five logical field values of a Finding. -/
abbrev FieldTuple := String × String × String × Bool × Bool

/-- Projection of a Finding to its five logical field values. -/
def fieldsOf (i : ContainerLimitIssue) : FieldTuple :=
  (i.«namespace», i.pod_name, i.container_name,
    i.missing_cpu_limit, i.missing_memory_limit)

/-- The CSV row of a five-field tuple. -/
def csvLineF (r : FieldTuple) : String :=
  "\"" ++ r.1 ++ "\",\"" ++ r.2.1 ++ "\",\"" ++ r.2.2.1
    ++ "\",\"" ++ pyBoolStr r.2.2.2.1
    ++ "\",\"" ++ pyBoolStr r.2.2.2.2 ++ "\""

/-- The JSON array item of a five-field tuple. -/
def jsonItemF (r : FieldTuple) : String :=
  "  \x7b\n    \"namespace\": " ++ pyJsonString r.1
    ++ ",\n    \"pod_name\": " ++ pyJsonString r.2.1
    ++ ",\n    \"container_name\": " ++ pyJsonString r.2.2.1
    ++ ",\n    \"missing_cpu_limit\": " ++ jsonBool r.2.2.2.1
    ++ ",\n    \"missing_memory_limit\": " ++ jsonBool r.2.2.2.2
    ++ "\n  \x7d"

/-- The five table cell texts of a five-field tuple. -/
def rowCellsF (r : FieldTuple) : List String :=
  [r.1, r.2.1, r.2.2.1, tableBool r.2.2.2.1, tableBool r.2.2.2.2]

/-- The CSV reporter as a function of the five field values only. -/
def csvFromFields (rows : List FieldTuple) : String :=
  String.intercalate "\n" (csvHeader :: rows.map csvLineF)

/-- The JSON reporter as a function of the five field values only. -/
def jsonFromFields (rows : List FieldTuple) : String :=
  if rows.isEmpty then "[]"
  else "[\n" ++ String.intercalate ",\n" (rows.map jsonItemF) ++ "\n]"

/-- The tabular reporter as a function of the five field values only. -/
def tableFromFields (rows : List FieldTuple) : String :=
  if rows.isEmpty then
    "No containers with missing resource limits found."
  else
    let ws :=
      [ max "NAMESPACE".length (listMax (rows.map (fun r => r.1.length))),
        max "POD NAME".length (listMax (rows.map (fun r => r.2.1.length))),
        max "CONTAINER NAME".length (listMax (rows.map (fun r => r.2.2.1.length))),
        "MISSING CPU".length,
        "MISSING MEMORY".length ]
    let sep := tableSeparator ws
    String.intercalate "\n"
      ([sep, tableRow ws headersList, sep]
        ++ rows.map (fun r => tableRow ws (rowCellsF r))
        ++ [sep])

/-! ### Connection and `main` -/

/-- Outcome of one credential-loading strategy: success, a
`ConfigException`, or any other exception. -/
inductive LoadResult where
  | ok
  | configErr
  | otherErr
deriving DecidableEq

/-- The method `KubernetesPodChecker.connect`: try in-cluster config first; fall
back to kubeconfig only on a `ConfigException`; any exception of the
fallback is caught and yields `False`; an unexpected (non-config)
in-cluster error also yields `False` without trying the fallback. -/
def connect (incluster kubecfg : LoadResult) : Bool :=
  match incluster with
  | .ok => true
  | .configErr =>
    match kubecfg with
    | .ok => true
    | .configErr => false
    | .otherErr => false
  | .otherErr => false

/-- The environment `main` runs against: the outcomes of the two
credential strategies, the listing call, the per-pod patch oracle, and
the relevant CLI arguments. -/
structure Env where
  incluster : LoadResult
  kubecfg : LoadResult
  listResult : Except String (List Pod)
  patchOk : String → String → Bool
  annotate : Bool
  output : String

/-- The function `main`: connect, list and evaluate, optionally annotate, format and
print, returning the exit code together with the printed text and the
annotation totals (the code logs the totals; `(0, 0)` when the
annotation pass does not run). -/
def main_run (env : Env) : Nat × String × ((Nat × Nat) × List PatchCall) :=
  if connect env.incluster env.kubecfg then
    let issues := get_containers_with_missing_limits_run env.listResult
    let annResult :=
      if env.annotate && !issues.isEmpty then
        annotate_pods_with_issues env.patchOk issues
      else ((0, 0), [])
    let out :=
      if env.output == "json" then format_json issues
      else if env.output == "csv" then format_csv issues
      else format_table issues
    (0, out, annResult)
  else
    (1, "", ((0, 0), []))

/-! ### Derived notions used by the statements -/

/-- Whether some Finding of the list with grouping key `k` has a
missing CPU limit (the OR the grouping loop accumulates). -/
def groupCpu (issues : List ContainerLimitIssue) (k : String) : Bool :=
  issues.any (fun i => pod_key i == k && i.missing_cpu_limit)

/-- Whether some Finding of the list with grouping key `k` has a
missing memory limit. -/
def groupMem (issues : List ContainerLimitIssue) (k : String) : Bool :=
  issues.any (fun i => pod_key i == k && i.missing_memory_limit)

/-- Record update applying a whole list of issues with key `k`. -/
def applyIssues (issues : List ContainerLimitIssue) (k : String) (info : PodInfo) : PodInfo :=
  { info with
      missing_cpu := info.missing_cpu || groupCpu issues k,
      missing_memory := info.missing_memory || groupMem issues k }

/-- Dictionary lookup in the association list (first entry wins). -/
def lookupG (l : List (String × PodInfo)) (k : String) : Option PodInfo :=
  (l.find? (fun e => e.1 == k)).map (fun e => e.2)

/-- The keys of the association list, in order. -/
def keysOf (l : List (String × PodInfo)) : List String :=
  l.map Prod.fst

/-- The patch calls one grouped entry leads to. -/
def annCalls (patchOk : String → String → Bool) (e : String × PodInfo) : List PatchCall :=
  (annotate_pod patchOk e.2.«namespace» e.2.pod_name e.2.missing_cpu e.2.missing_memory).2

/-- The single patch call of a grouped entry whose aggregate booleans
are not both false. -/
def callOf (e : String × PodInfo) : PatchCall :=
  ⟨e.2.«namespace», e.2.pod_name,
    (warning_value e.2.missing_cpu e.2.missing_memory).getD ""⟩

/-- Two Findings whose distinct (namespace, pod_name) pairs collide on
the grouping key `namespace ++ "/" ++ pod_name`: used as a test input
below. -/
def slashIssues : List ContainerLimitIssue :=
  [⟨"team-a/prod", "api", "c1", true, true⟩,
   ⟨"team-a", "prod/api", "c2", true, true⟩]

/-- The spec's scenario Findings: pod `ns-a/web-1` with `app` missing
only memory and `sidecar` missing both. -/
def scenarioIssues : List ContainerLimitIssue :=
  [⟨"ns-a", "web-1", "app", false, true⟩,
   ⟨"ns-a", "web-1", "sidecar", true, true⟩]

/-- Three Findings over two distinct pods: used as a test input below. -/
def twoPodIssues : List ContainerLimitIssue :=
  [⟨"ns-a", "web-1", "app", false, true⟩,
   ⟨"ns-a", "web-1", "sidecar", true, true⟩,
   ⟨"ns-b", "db-0", "db", true, false⟩]

/-- An environment whose in-cluster credential path fails with an
unexpected (non-config) error while the kubeconfig path would succeed. -/
def ceEnv : Env :=
  ⟨LoadResult.otherErr, LoadResult.ok, Except.ok [], fun _ _ => true, false, "table"⟩

/-- A concrete container whose limits block is `null`: used as a test
input below. -/
def witSidecar : Container :=
  ⟨"sidecar", some ⟨none⟩⟩

/-- A concrete container with both keys present but degenerate values
(`"0"` and the empty string): used as a test input below. -/
def witFull : Container :=
  ⟨"full", some ⟨some [("cpu", "0"), ("memory", "")]⟩⟩

/-- A concrete one-pod snapshot holding the two containers above. -/
def witPod : Pod :=
  ⟨⟨"ns-a", "web-1"⟩, ⟨[witSidecar, witFull]⟩⟩

/-! ## Lemmas about the Evaluator -/

theorem dictGet_isSome (d : List LimitEntry) (k : String) :
    (dictGet d k).isSome = d.any (fun kv => kv.1 == k) := by
  unfold dictGet
  cases h : d.find? (fun kv => kv.1 == k) with
  | none =>
    rw [List.find?_eq_none] at h
    simp only [Option.map_none', Option.isSome_none]
    exact (List.any_eq_false.mpr h).symm
  | some e =>
    have he : e ∈ d := List.mem_of_find?_eq_some h
    have hp := List.find?_some h
    simp only [Option.map_some', Option.isSome_some]
    exact (List.any_eq_true.mpr ⟨e, he, hp⟩).symm

theorem containerMissingCpu_some (c : Container) (d : List LimitEntry)
    (h : containerLimits c = some d) :
    containerMissingCpu c = !(d.any fun kv => kv.1 == "cpu") := by
  have h2 : containerMissingCpu c = (dictGet d "cpu").isNone := by
    unfold containerMissingCpu
    rw [h]
  rw [h2, ← dictGet_isSome]
  cases dictGet d "cpu" <;> rfl

theorem containerMissingMemory_some (c : Container) (d : List LimitEntry)
    (h : containerLimits c = some d) :
    containerMissingMemory c = !(d.any fun kv => kv.1 == "memory") := by
  have h2 : containerMissingMemory c = (dictGet d "memory").isNone := by
    unfold containerMissingMemory
    rw [h]
  rw [h2, ← dictGet_isSome]
  cases dictGet d "memory" <;> rfl

theorem checkContainer_eq_some (ns pn : String) (c : Container) (i : ContainerLimitIssue) :
    checkContainer ns pn c = some i ↔
      (containerMissingCpu c || containerMissingMemory c) = true ∧
      i = ⟨ns, pn, c.name, containerMissingCpu c, containerMissingMemory c⟩ := by
  unfold checkContainer
  split
  · next h => simp [h, eq_comm]
  · next h => simp [h]

theorem checkContainer_eq_none (ns pn : String) (c : Container) :
    checkContainer ns pn c = none ↔
      (containerMissingCpu c || containerMissingMemory c) = false := by
  unfold checkContainer
  split
  · next h => simp [h]
  · next h => simpa using h

theorem mem_evaluator (pods : List Pod) (i : ContainerLimitIssue) :
    i ∈ get_containers_with_missing_limits pods ↔
      ∃ p ∈ pods, ∃ c ∈ p.spec.containers,
        checkContainer p.metadata.«namespace» p.metadata.name c = some i := by
  unfold get_containers_with_missing_limits
  simp [List.mem_flatMap, List.mem_filterMap]

/-! ## Claim theorems: Evaluator -/

/-- C1: the Evaluator emits a Finding for a container iff the
container's `missing_cpu_limit` OR `missing_memory_limit` is true, and
a container whose limits mapping contains both the `"cpu"` and the
`"memory"` key never produces a Finding, whatever the stored values
(including `"0"` or the empty string). -/
theorem evaluator_finding_iff_missing (pods : List Pod) :
    (∀ i ∈ get_containers_with_missing_limits pods,
        (i.missing_cpu_limit || i.missing_memory_limit) = true) ∧
    (∀ p ∈ pods, ∀ c ∈ p.spec.containers,
      ((containerMissingCpu c || containerMissingMemory c) = true ↔
        checkContainer p.metadata.«namespace» p.metadata.name c ≠ none) ∧
      ((containerMissingCpu c || containerMissingMemory c) = true →
        issueOf p c ∈ get_containers_with_missing_limits pods) ∧
      (∀ d v1 v2, containerLimits c = some d → ("cpu", v1) ∈ d → ("memory", v2) ∈ d →
        checkContainer p.metadata.«namespace» p.metadata.name c = none)) := by
  constructor
  · intro i hi
    rw [mem_evaluator] at hi
    obtain ⟨p, _, c, _, hcs⟩ := hi
    rcases (checkContainer_eq_some _ _ _ _).1 hcs with ⟨hcond, rfl⟩
    exact hcond
  · intro p hp c hc
    refine ⟨?_, ?_, ?_⟩
    · constructor
      · intro h hn
        rw [checkContainer_eq_none] at hn
        rw [h] at hn
        cases hn
      · intro h
        rcases hval : (containerMissingCpu c || containerMissingMemory c) with _ | _
        · exact absurd ((checkContainer_eq_none _ _ _).2 hval) h
        · rfl
    · intro h
      rw [mem_evaluator]
      exact ⟨p, hp, c, hc, (checkContainer_eq_some _ _ _ _).2 ⟨h, rfl⟩⟩
    · intro d v1 v2 hd h1 h2
      rw [checkContainer_eq_none]
      have hcpu : containerMissingCpu c = false := by
        rw [containerMissingCpu_some c d hd]
        have : d.any (fun kv => kv.1 == "cpu") = true :=
          List.any_eq_true.mpr ⟨("cpu", v1), h1, by simp⟩
        simp [this]
      have hmem : containerMissingMemory c = false := by
        rw [containerMissingMemory_some c d hd]
        have : d.any (fun kv => kv.1 == "memory") = true :=
          List.any_eq_true.mpr ⟨("memory", v2), h2, by simp⟩
        simp [this]
      simp [hcpu, hmem]

/-- Witness for C1 on the spec's scenario pod: the sidecar container
(no limits block) yields a Finding, and a container with both keys
present (values `"0"` and `""`) yields none. -/
theorem evaluator_finding_iff_missing_witness :
    issueOf witPod witSidecar ∈ get_containers_with_missing_limits [witPod] ∧
    checkContainer "ns-a" "web-1" witFull = none :=
  ⟨((evaluator_finding_iff_missing [witPod]).2 witPod (by decide) witSidecar
      (by decide)).2.1 (by decide),
   ((evaluator_finding_iff_missing [witPod]).2 witPod (by decide) witFull
      (by decide)).2.2 [("cpu", "0"), ("memory", "")] "0" "" rfl (by decide) (by decide)⟩

/-- C2: `missing_cpu_limit` is computed as (limits absent OR `"cpu"`
key absent) and `missing_memory_limit` as (limits absent OR `"memory"`
key absent), with key presence as the only signal; a container with no
limits mapping gets both booleans true, a mapping containing only
`"cpu"` gives `missing_cpu_limit = false` and
`missing_memory_limit = true`, and every emitted Finding records both
independently computed booleans. -/
theorem evaluator_missing_booleans (c : Container) (pods : List Pod) :
    (containerLimits c = none →
      containerMissingCpu c = true ∧ containerMissingMemory c = true) ∧
    (∀ d, containerLimits c = some d →
      containerMissingCpu c = !(d.any fun kv => kv.1 == "cpu") ∧
      containerMissingMemory c = !(d.any fun kv => kv.1 == "memory")) ∧
    (∀ d, containerLimits c = some d → d ≠ [] → (∀ kv ∈ d, kv.1 = "cpu") →
      containerMissingCpu c = false ∧ containerMissingMemory c = true) ∧
    (∀ i ∈ get_containers_with_missing_limits pods,
      ∃ p ∈ pods, ∃ c0 ∈ p.spec.containers, i = issueOf p c0) := by
  refine ⟨?_, ?_, ?_, ?_⟩
  · intro h
    unfold containerMissingCpu containerMissingMemory
    rw [h]
    exact ⟨rfl, rfl⟩
  · intro d hd
    exact ⟨containerMissingCpu_some c d hd, containerMissingMemory_some c d hd⟩
  · intro d hd hne hall
    constructor
    · rw [containerMissingCpu_some c d hd]
      cases d with
      | nil => exact absurd rfl hne
      | cons kv t =>
        have : (kv.1 == "cpu") = true := by simp [hall kv (List.mem_cons_self kv t)]
        simp [List.any_cons, this]
    · rw [containerMissingMemory_some c d hd]
      have : d.any (fun kv => kv.1 == "memory") = false := by
        rw [List.any_eq_false]
        intro kv hkv
        simp [hall kv hkv]
      simp [this]
  · intro i hi
    rw [mem_evaluator] at hi
    obtain ⟨p, hp, c0, hc0, hcs⟩ := hi
    rcases (checkContainer_eq_some _ _ _ _).1 hcs with ⟨_, rfl⟩
    exact ⟨p, hp, c0, hc0, rfl⟩

/-- Witness for C2 on a container whose mapping contains only `"cpu"`. -/
theorem evaluator_missing_booleans_witness :
    containerMissingCpu ⟨"app", some ⟨some [("cpu", "500m")]⟩⟩ = false ∧
    containerMissingMemory ⟨"app", some ⟨some [("cpu", "500m")]⟩⟩ = true :=
  (evaluator_missing_booleans ⟨"app", some ⟨some [("cpu", "500m")]⟩⟩ []).2.2.1
    [("cpu", "500m")] rfl (by decide) (by decide)

theorem filterMap_map_sublist {α β γ : Type} (l : List α) (f : α → Option β)
    (g : β → γ) (h : α → γ) (H : ∀ a b, f a = some b → g b = h a) :
    List.Sublist ((l.filterMap f).map g) (l.map h) := by
  induction l with
  | nil => simp
  | cons a t ih =>
    rw [List.map_cons, List.filterMap_cons]
    cases hfa : f a with
    | none => exact ih.cons (h a)
    | some b =>
      rw [List.map_cons, H a b hfa]
      exact ih.cons₂ (h a)

theorem flatMap_sublist {α β : Type} (l : List α) (f g : α → List β)
    (H : ∀ a ∈ l, List.Sublist (f a) (g a)) :
    List.Sublist (l.flatMap f) (l.flatMap g) := by
  induction l with
  | nil => simp
  | cons a t ih =>
    rw [List.flatMap_cons, List.flatMap_cons]
    exact (H a (List.mem_cons_self a t)).append
      (ih fun x hx => H x (List.mem_cons_of_mem a hx))

/-- C3: the Finding sequence preserves the snapshot's pod order and,
within each pod, its container order: the output's key triples form a
sublist of the snapshot's nested iteration order. -/
theorem evaluator_preserves_order (pods : List Pod) :
    List.Sublist ((get_containers_with_missing_limits pods).map issueKey)
      (snapshotKeys pods) := by
  unfold get_containers_with_missing_limits snapshotKeys
  rw [List.map_flatMap]
  apply flatMap_sublist
  intro p _
  apply filterMap_map_sublist
  intro c i hci
  rcases (checkContainer_eq_some _ _ _ _).1 hci with ⟨_, rfl⟩
  rfl

/-- C6: a failed listing call yields the empty Finding sequence rather
than an error, and `main` then behaves exactly as on a genuinely empty
cluster. -/
theorem evaluator_listing_failure (e : String) (env : Env) :
    get_containers_with_missing_limits_run (Except.error e) = [] ∧
    main_run { env with listResult := Except.error e } =
      main_run { env with listResult := Except.ok [] } :=
  ⟨rfl, rfl⟩

/-- C8: each reporter is total on the empty Finding sequence and
produces its defined empty-case text: the fixed sentence, the header
line only, and the empty JSON array. -/
theorem reporters_empty_case :
    format_table [] = "No containers with missing resource limits found." ∧
    format_csv [] = csvHeader ∧
    format_json [] = "[]" :=
  ⟨rfl, rfl, rfl⟩

theorem map_fieldsOf_eq {γ : Type} (g : FieldTuple → γ) (l : List ContainerLimitIssue) :
    (l.map fieldsOf).map g = l.map (fun i => g (fieldsOf i)) := by
  rw [List.map_map]
  rfl

/-- C9: the delimited and structured reporters carry the same five
logical field values per Finding as the tabular reporter: each format
factors through `fieldsOf`, and the three boolean renderings decode to
the same truth values. -/
theorem reporters_value_equivalence (issues : List ContainerLimitIssue) :
    format_csv issues = csvFromFields (issues.map fieldsOf) ∧
    format_json issues = jsonFromFields (issues.map fieldsOf) ∧
    format_table issues = tableFromFields (issues.map fieldsOf) ∧
    (∀ b : Bool,
      decodeTableBool (tableBool b) = some b ∧
      decodePyBool (pyBoolStr b) = some b ∧
      decodeJsonBool (jsonBool b) = some b) := by
  refine ⟨?_, ?_, ?_, fun b => by cases b <;> exact ⟨rfl, rfl, rfl⟩⟩
  · simp only [format_csv, csvFromFields, map_fieldsOf_eq]
    rfl
  · cases issues with
    | nil => rfl
    | cons a t =>
      simp only [format_json, jsonFromFields, map_fieldsOf_eq]
      rfl
  · cases issues with
    | nil => rfl
    | cons a t =>
      simp only [format_table, tableFromFields, col_widths, map_fieldsOf_eq]
      rfl

/-! ## Lemmas about the Annotator's grouping loop -/

theorem keysOf_insertIssue (acc : List (String × PodInfo)) (i : ContainerLimitIssue) :
    keysOf (insertIssue acc i) =
      if acc.any (fun e => e.1 == pod_key i) then keysOf acc
      else keysOf acc ++ [pod_key i] := by
  unfold insertIssue keysOf
  by_cases h : acc.any (fun e => e.1 == pod_key i) = true
  · rw [if_pos h, if_pos h, List.map_map]
    congr 1
    funext e
    simp only [Function.comp_apply]
    split <;> rfl
  · rw [if_neg h, if_neg h, List.map_append]
    rfl

theorem lookupG_insertIssue (acc : List (String × PodInfo)) (i : ContainerLimitIssue)
    (k : String) :
    lookupG (insertIssue acc i) k =
      if pod_key i = k then
        match lookupG acc k with
        | some info => some (updateInfo i info)
        | none => some (updateInfo i (freshInfo i))
      else lookupG acc k := by
  unfold insertIssue lookupG
  by_cases hmem : acc.any (fun e => e.1 == pod_key i) = true
  · rw [if_pos hmem, List.find?_map]
    have hGfst : ((fun e : String × PodInfo => e.1 == k) ∘
        (fun e => if e.1 == pod_key i then (e.1, updateInfo i e.2) else e)) =
        fun e : String × PodInfo => e.1 == k := by
      funext e
      simp only [Function.comp_apply]
      split <;> rfl
    rw [hGfst]
    by_cases hk : pod_key i = k
    · rw [if_pos hk]
      cases hf : acc.find? (fun e => e.1 == k) with
      | none =>
        exfalso
        rw [List.find?_eq_none] at hf
        rcases List.any_eq_true.1 hmem with ⟨e, he, hpe⟩
        refine hf e he ?_
        rw [eq_of_beq hpe, hk]
        exact beq_self_eq_true k
      | some e0 =>
        have hp := List.find?_some hf
        have hfst : (e0.1 == pod_key i) = true := by
          rw [eq_of_beq hp, hk]
          exact beq_self_eq_true k
        simp only [Option.map_some', hfst, if_pos]
    · rw [if_neg hk]
      cases hf : acc.find? (fun e => e.1 == k) with
      | none => rfl
      | some e0 =>
        have hp := List.find?_some hf
        have hfst : (e0.1 == pod_key i) = false := by
          rw [eq_of_beq hp]
          exact beq_eq_false_iff_ne.mpr fun hkk => hk hkk.symm
        simp only [Option.map_some', hfst]
        rfl
  · rw [if_neg hmem, List.find?_append]
    have hnone : acc.find? (fun e => e.1 == pod_key i) = none := by
      rw [List.find?_eq_none]
      intro e he hpe
      exact hmem (List.any_eq_true.2 ⟨e, he, hpe⟩)
    by_cases hk : pod_key i = k
    · rw [if_pos hk]
      have hacc : acc.find? (fun e => e.1 == k) = none := by rw [← hk]; exact hnone
      rw [hacc]
      simp only [Option.none_or, List.find?_cons, Option.map_none']
      have : ((pod_key i, updateInfo i (freshInfo i)).1 == k) = true := by
        simp [hk]
      simp [this]
    · rw [if_neg hk]
      have hsingle :
          [(pod_key i, updateInfo i (freshInfo i))].find? (fun e => e.1 == k) = none := by
        rw [List.find?_eq_none]
        intro e he hpe
        rw [List.mem_singleton] at he
        subst he
        exact hk (eq_of_beq hpe)
      rw [hsingle, Option.or_none]

theorem lookupG_foldl (issues : List ContainerLimitIssue) :
    ∀ (acc : List (String × PodInfo)) (k : String),
      lookupG (issues.foldl insertIssue acc) k =
        match lookupG acc k with
        | some info => some (applyIssues issues k info)
        | none =>
          match issues.find? (fun i => pod_key i == k) with
          | some i0 =>
            some ⟨i0.«namespace», i0.pod_name, groupCpu issues k, groupMem issues k⟩
          | none => none := by
  induction issues with
  | nil =>
    intro acc k
    rw [List.foldl_nil]
    cases h : lookupG acc k with
    | none => simp [h]
    | some info =>
      cases info
      simp [h, applyIssues, groupCpu, groupMem]
  | cons i rest ih =>
    intro acc k
    rw [List.foldl_cons, ih (insertIssue acc i) k, lookupG_insertIssue]
    by_cases hk : pod_key i = k
    · rw [if_pos hk]
      have hbeq : (pod_key i == k) = true := by
        rw [hk]; exact beq_self_eq_true k
      cases h : lookupG acc k with
      | some info =>
        cases info
        simp [h, applyIssues, updateInfo, groupCpu, groupMem, List.any_cons, hbeq,
          Bool.or_assoc]
      | none =>
        have hfind : (i :: rest).find? (fun j => pod_key j == k) = some i := by
          simp [List.find?_cons, hbeq]
        simp [h, hfind, applyIssues, updateInfo, freshInfo, groupCpu, groupMem,
          List.any_cons, hbeq]
    · rw [if_neg hk]
      have hbeq : (pod_key i == k) = false := beq_eq_false_iff_ne.mpr hk
      have h1 : groupCpu (i :: rest) k = groupCpu rest k := by
        simp [groupCpu, List.any_cons, hbeq]
      have h2 : groupMem (i :: rest) k = groupMem rest k := by
        simp [groupMem, List.any_cons, hbeq]
      have h3 : (i :: rest).find? (fun j => pod_key j == k) =
          rest.find? (fun j => pod_key j == k) := by
        simp [List.find?_cons, hbeq]
      cases h : lookupG acc k with
      | some info => simp [applyIssues, h1, h2]
      | none => rw [h3, h1, h2]

theorem lookupG_group (issues : List ContainerLimitIssue) (k : String) :
    lookupG (group_issues issues) k =
      match issues.find? (fun i => pod_key i == k) with
      | some i0 => some ⟨i0.«namespace», i0.pod_name, groupCpu issues k, groupMem issues k⟩
      | none => none := by
  unfold group_issues
  rw [lookupG_foldl issues [] k]
  rfl

theorem lookupG_isSome (l : List (String × PodInfo)) (k : String) :
    (lookupG l k).isSome = true ↔ k ∈ keysOf l := by
  unfold lookupG keysOf
  cases hf : l.find? (fun e => e.1 == k) with
  | none =>
    rw [List.find?_eq_none] at hf
    simp only [Option.map_none', Option.isSome_none, Bool.false_eq_true, false_iff]
    intro hk
    rcases List.mem_map.1 hk with ⟨e, he, rfl⟩
    exact hf e he (beq_self_eq_true e.1)
  | some e =>
    have he : e ∈ l := List.mem_of_find?_eq_some hf
    have hp := List.find?_some hf
    simp only [Option.map_some', Option.isSome_some, true_iff]
    exact List.mem_map.2 ⟨e, he, eq_of_beq hp⟩

theorem mem_keysOf_group (issues : List ContainerLimitIssue) (k : String) :
    k ∈ keysOf (group_issues issues) ↔ k ∈ issues.map pod_key := by
  rw [← lookupG_isSome, lookupG_group]
  cases hf : issues.find? (fun i => pod_key i == k) with
  | none =>
    rw [List.find?_eq_none] at hf
    simp only [Option.isSome_none, Bool.false_eq_true, false_iff]
    intro hk
    rcases List.mem_map.1 hk with ⟨i, hi, rfl⟩
    exact hf i hi (beq_self_eq_true (pod_key i))
  | some i0 =>
    have hi0 : i0 ∈ issues := List.mem_of_find?_eq_some hf
    have hp := List.find?_some hf
    simp only [Option.isSome_some, true_iff]
    exact List.mem_map.2 ⟨i0, hi0, eq_of_beq hp⟩

theorem nodup_keysOf_foldl (issues : List ContainerLimitIssue) :
    ∀ acc : List (String × PodInfo),
      (keysOf acc).Nodup → (keysOf (issues.foldl insertIssue acc)).Nodup := by
  induction issues with
  | nil =>
    intro acc h
    simpa using h
  | cons i rest ih =>
    intro acc h
    rw [List.foldl_cons]
    apply ih
    rw [keysOf_insertIssue]
    by_cases hmem : acc.any (fun e => e.1 == pod_key i) = true
    · rw [if_pos hmem]
      exact h
    · rw [if_neg hmem]
      have hnot : pod_key i ∉ keysOf acc := by
        intro hk
        rcases List.mem_map.1 hk with ⟨e, he, hfst⟩
        refine hmem (List.any_eq_true.2 ⟨e, he, ?_⟩)
        rw [hfst]
        exact beq_self_eq_true (pod_key i)
      rw [List.nodup_append]
      refine ⟨h, List.nodup_singleton _, ?_⟩
      intro a ha hb
      rw [List.mem_singleton] at hb
      subst hb
      exact hnot ha

theorem nodup_keysOf_group (issues : List ContainerLimitIssue) :
    (keysOf (group_issues issues)).Nodup :=
  nodup_keysOf_foldl issues [] (by simp [keysOf])

theorem mem_group_lookup (l : List (String × PodInfo)) (hnd : (keysOf l).Nodup) :
    ∀ e ∈ l, lookupG l e.1 = some e.2 := by
  induction l with
  | nil =>
    intro e he
    cases he
  | cons a t ih =>
    intro e he
    rw [keysOf, List.map_cons] at hnd
    rcases List.mem_cons.1 he with rfl | het
    · unfold lookupG
      simp [List.find?_cons]
    · have hne : (a.1 == e.1) = false := by
        refine beq_eq_false_iff_ne.mpr fun hfst => ?_
        have : a.1 ∈ keysOf t := List.mem_map.2 ⟨e, het, hfst.symm⟩
        exact (List.nodup_cons.1 hnd).1 this
      have hstep : lookupG (a :: t) e.1 = lookupG t e.1 := by
        unfold lookupG
        simp [List.find?_cons, hne]
      rw [hstep]
      exact ih (List.nodup_cons.1 hnd).2 e het

theorem lookupG_mem (l : List (String × PodInfo)) (k : String) (info : PodInfo)
    (h : lookupG l k = some info) : (k, info) ∈ l := by
  unfold lookupG at h
  cases hf : l.find? (fun e => e.1 == k) with
  | none =>
    rw [hf] at h
    cases h
  | some e =>
    rw [hf] at h
    have he : e ∈ l := List.mem_of_find?_eq_some hf
    have hp := List.find?_some hf
    obtain ⟨e1, e2⟩ := e
    injection h with h2
    have h1 : e1 = k := eq_of_beq hp
    subst h1
    subst h2
    exact he

theorem group_entry_char (issues : List ContainerLimitIssue) (e : String × PodInfo)
    (he : e ∈ group_issues issues) :
    ∃ i0 ∈ issues, pod_key i0 = e.1 ∧
      e.2 = ⟨i0.«namespace», i0.pod_name, groupCpu issues e.1, groupMem issues e.1⟩ := by
  have hl := mem_group_lookup (group_issues issues) (nodup_keysOf_group issues) e he
  rw [lookupG_group] at hl
  cases hf : issues.find? (fun i => pod_key i == e.1) with
  | none =>
    rw [hf] at hl
    cases hl
  | some i0 =>
    rw [hf] at hl
    have hi0 : i0 ∈ issues := List.mem_of_find?_eq_some hf
    have hp := List.find?_some hf
    injection hl with hl2
    exact ⟨i0, hi0, eq_of_beq hp, hl2.symm⟩

/-! ## Lemmas about the Annotator's patch loop -/

theorem counts_fold_sum (patchOk : String → String → Bool)
    (groups : List (String × PodInfo)) :
    ∀ acc : (Nat × Nat) × List PatchCall,
      (groups.foldl (annotateStep patchOk) acc).1.1
          + (groups.foldl (annotateStep patchOk) acc).1.2
        = acc.1.1 + acc.1.2 + groups.length := by
  induction groups with
  | nil =>
    intro acc
    simp
  | cons e t ih =>
    intro acc
    rw [List.foldl_cons, ih (annotateStep patchOk acc e)]
    have hstep : (annotateStep patchOk acc e).1.1 + (annotateStep patchOk acc e).1.2
        = acc.1.1 + acc.1.2 + 1 := by
      unfold annotateStep
      cases (annotate_pod patchOk e.2.«namespace» e.2.pod_name
          e.2.missing_cpu e.2.missing_memory).1 <;> simp <;> omega
    rw [hstep, List.length_cons]
    omega

theorem calls_fold (patchOk : String → String → Bool)
    (groups : List (String × PodInfo)) :
    ∀ acc : (Nat × Nat) × List PatchCall,
      (groups.foldl (annotateStep patchOk) acc).2
        = acc.2 ++ groups.flatMap (annCalls patchOk) := by
  induction groups with
  | nil =>
    intro acc
    simp
  | cons e t ih =>
    intro acc
    rw [List.foldl_cons, ih (annotateStep patchOk acc e), List.flatMap_cons]
    have hstep : (annotateStep patchOk acc e).2 = acc.2 ++ annCalls patchOk e := rfl
    rw [hstep, List.append_assoc]

theorem success_failure_sum (patchOk : String → String → Bool)
    (issues : List ContainerLimitIssue) :
    (annotate_pods_with_issues patchOk issues).1.1
        + (annotate_pods_with_issues patchOk issues).1.2
      = (group_issues issues).length := by
  unfold annotate_pods_with_issues
  rw [counts_fold_sum patchOk (group_issues issues) ((0, 0), [])]
  simp

theorem group_length_eq_card (issues : List ContainerLimitIssue) :
    (group_issues issues).length = ((issues.map pod_key).toFinset).card := by
  have hnd := nodup_keysOf_group issues
  have hsame : (keysOf (group_issues issues)).toFinset = (issues.map pod_key).toFinset := by
    ext a
    simp only [List.mem_toFinset]
    exact mem_keysOf_group issues a
  have hlen : (keysOf (group_issues issues)).length = (group_issues issues).length := by
    simp [keysOf]
  rw [← hlen, ← List.toFinset_card_of_nodup hnd, hsame]

theorem any_congr {α : Type} (l : List α) (p q : α → Bool)
    (H : ∀ a ∈ l, p a = q a) : l.any p = l.any q := by
  induction l with
  | nil => rfl
  | cons a t ih =>
    rw [List.any_cons, List.any_cons, H a (List.mem_cons_self a t),
      ih (fun x hx => H x (List.mem_cons_of_mem a hx))]

theorem warning_value_eq_none (mc mm : Bool) :
    warning_value mc mm = none ↔ (mc || mm) = false := by
  cases mc <;> cases mm <;> simp [warning_value]

theorem group_entry_or (issues : List ContainerLimitIssue)
    (hev : ∀ i ∈ issues, (i.missing_cpu_limit || i.missing_memory_limit) = true)
    (e : String × PodInfo) (he : e ∈ group_issues issues) :
    (e.2.missing_cpu || e.2.missing_memory) = true := by
  obtain ⟨i0, hi0, hkey, hinfo⟩ := group_entry_char issues e he
  rw [hinfo]
  have hbeq : (pod_key i0 == e.1) = true := by
    rw [hkey]
    exact beq_self_eq_true e.1
  have h := hev i0 hi0
  cases hc : i0.missing_cpu_limit with
  | true =>
    have hcg : groupCpu issues e.1 = true :=
      List.any_eq_true.2 ⟨i0, hi0, by simp [hbeq, hc]⟩
    simp [hcg]
  | false =>
    rw [hc] at h
    simp only [Bool.false_or] at h
    have hmg : groupMem issues e.1 = true :=
      List.any_eq_true.2 ⟨i0, hi0, by simp [hbeq, h]⟩
    simp [hmg]

theorem flatMap_eq_map_single {α β : Type} (l : List α) (f : α → List β) (g : α → β)
    (H : ∀ a ∈ l, f a = [g a]) : l.flatMap f = l.map g := by
  induction l with
  | nil => rfl
  | cons a t ih =>
    rw [List.flatMap_cons, List.map_cons, H a (List.mem_cons_self a t),
      ih (fun x hx => H x (List.mem_cons_of_mem a hx))]
    rfl

theorem annCalls_eq_callOf (patchOk : String → String → Bool) (e : String × PodInfo)
    (h : (e.2.missing_cpu || e.2.missing_memory) = true) :
    annCalls patchOk e = [callOf e] := by
  unfold annCalls annotate_pod callOf
  cases hw : warning_value e.2.missing_cpu e.2.missing_memory with
  | none =>
    rw [warning_value_eq_none] at hw
    rw [h] at hw
    cases hw
  | some v => simp [hw]

theorem calls_eq_map (patchOk : String → String → Bool)
    (issues : List ContainerLimitIssue)
    (hev : ∀ i ∈ issues, (i.missing_cpu_limit || i.missing_memory_limit) = true) :
    (annotate_pods_with_issues patchOk issues).2 = (group_issues issues).map callOf := by
  unfold annotate_pods_with_issues
  rw [calls_fold patchOk (group_issues issues) ((0, 0), []), List.nil_append]
  exact flatMap_eq_map_single _ _ _
    (fun e he => annCalls_eq_callOf patchOk e (group_entry_or issues hev e he))

theorem nodup_group (issues : List ContainerLimitIssue) :
    (group_issues issues).Nodup :=
  List.Nodup.of_map Prod.fst (nodup_keysOf_group issues)

theorem group_entry_key (issues : List ContainerLimitIssue) (e : String × PodInfo)
    (he : e ∈ group_issues issues) :
    keyOfPair (e.2.«namespace», e.2.pod_name) = e.1 := by
  obtain ⟨i0, _, hkey, hinfo⟩ := group_entry_char issues e he
  rw [hinfo]
  exact hkey

/-! ## Claim theorems: Annotator and `main` -/

/-- C5 (amended): per-pod annotation attempts are independent — for any
patch oracle, including one that always fails, `success + failure`
equals the number of distinct grouping keys `namespace ++ "/" ++
pod_name` (not the number of Findings); this equals the number of
distinct (namespace, pod_name) pairs whenever no two Findings with
distinct pairs share a grouping key (guaranteed for Kubernetes names,
which cannot contain `/`). -/
theorem annotator_counts_sum_distinct (patchOk : String → String → Bool)
    (issues : List ContainerLimitIssue) :
    ((annotate_pods_with_issues patchOk issues).1.1
        + (annotate_pods_with_issues patchOk issues).1.2
      = ((issues.map pod_key).toFinset).card) ∧
    ((∀ i1 ∈ issues, ∀ i2 ∈ issues, pod_key i1 = pod_key i2 → pairOf i1 = pairOf i2) →
      (annotate_pods_with_issues patchOk issues).1.1
          + (annotate_pods_with_issues patchOk issues).1.2
        = ((issues.map pairOf).toFinset).card) := by
  have hbase := (success_failure_sum patchOk issues).trans (group_length_eq_card issues)
  refine ⟨hbase, fun hinj => ?_⟩
  rw [hbase]
  have hmap : issues.map pod_key = (issues.map pairOf).map keyOfPair := by
    rw [List.map_map]
    rfl
  rw [hmap]
  have himg : ((issues.map pairOf).map keyOfPair).toFinset
      = (issues.map pairOf).toFinset.image keyOfPair := by
    ext a
    simp [List.mem_toFinset, List.mem_map]
  rw [himg]
  apply Finset.card_image_of_injOn
  intro p1 hp1 p2 hp2 hkey
  rw [Finset.mem_coe, List.mem_toFinset] at hp1 hp2
  rcases List.mem_map.1 hp1 with ⟨i1, hi1, rfl⟩
  rcases List.mem_map.1 hp2 with ⟨i2, hi2, rfl⟩
  exact hinj i1 hi1 i2 hi2 hkey

/-- Witness for C5: three Findings over two distinct pods give
`success + failure = 2`, the number of distinct pods. -/
theorem annotator_counts_sum_distinct_witness :
    (annotate_pods_with_issues (fun _ _ => true) twoPodIssues).1.1
        + (annotate_pods_with_issues (fun _ _ => true) twoPodIssues).1.2
      = ((twoPodIssues.map pairOf).toFinset).card :=
  (annotator_counts_sum_distinct (fun _ _ => true) twoPodIssues).2 (by decide)

/-- Counterexample to C5 as stated: two Findings with distinct
(namespace, pod_name) pairs whose grouping keys collide (`"team-a/prod"
/ "api"` and `"team-a" / "prod/api"`) produce `success + failure = 1`,
not the 2 distinct pods. -/
theorem annotator_counts_sum_distinct_counterexample :
    (annotate_pods_with_issues (fun _ _ => true) slashIssues).1.1
        + (annotate_pods_with_issues (fun _ _ => true) slashIssues).1.2 = 1 ∧
    ((slashIssues.map pairOf).toFinset).card = 2 := by
  decide

/-- C4 (amended): provided every Finding has a missing limit (the
Finding invariant) and no two Findings with distinct (namespace,
pod_name) pairs share a grouping key (guaranteed for Kubernetes names,
which cannot contain `/`), exactly one patch call is attempted per
distinct (namespace, pod_name) pair — the call targets are duplicate
free and are exactly the distinct pairs — and each call's annotation
value is derived by the priority chain from the OR of
`missing_cpu_limit` / `missing_memory_limit` over the pod's Findings. -/
theorem annotator_one_patch_per_pod (patchOk : String → String → Bool)
    (issues : List ContainerLimitIssue)
    (hev : ∀ i ∈ issues, (i.missing_cpu_limit || i.missing_memory_limit) = true)
    (hinj : ∀ i1 ∈ issues, ∀ i2 ∈ issues, pod_key i1 = pod_key i2 → pairOf i1 = pairOf i2) :
    (((annotate_pods_with_issues patchOk issues).2).map callPair).Nodup ∧
    ((((annotate_pods_with_issues patchOk issues).2).map callPair).toFinset
      = (issues.map pairOf).toFinset) ∧
    (∀ pc ∈ (annotate_pods_with_issues patchOk issues).2,
      some pc.value = warning_value
        (issues.any fun i => decide (pairOf i = callPair pc) && i.missing_cpu_limit)
        (issues.any fun i => decide (pairOf i = callPair pc) && i.missing_memory_limit)) := by
  rw [calls_eq_map patchOk issues hev, List.map_map]
  refine ⟨?_, ?_, ?_⟩
  · refine List.Nodup.map_on ?_ (nodup_group issues)
    intro e1 h1 e2 h2 heq
    have hk : e1.1 = e2.1 := by
      rw [← group_entry_key issues e1 h1, ← group_entry_key issues e2 h2]
      exact congrArg keyOfPair heq
    have hl1 := mem_group_lookup (group_issues issues) (nodup_keysOf_group issues) e1 h1
    have hl2 := mem_group_lookup (group_issues issues) (nodup_keysOf_group issues) e2 h2
    rw [hk, hl2] at hl1
    injection hl1 with h22
    obtain ⟨k1, f1⟩ := e1
    obtain ⟨k2, f2⟩ := e2
    cases hk
    cases h22
    rfl
  · ext p
    simp only [List.mem_toFinset, List.mem_map, Function.comp_apply]
    constructor
    · rintro ⟨e, he, rfl⟩
      obtain ⟨i0, hi0, hkey, hinfo⟩ := group_entry_char issues e he
      have hinfo' : e.2 =
          (⟨i0.«namespace», i0.pod_name, groupCpu issues e.1, groupMem issues e.1⟩ :
            PodInfo) := hinfo
      refine ⟨i0, hi0, ?_⟩
      show pairOf i0 = (e.2.«namespace», e.2.pod_name)
      rw [hinfo']
      rfl
    · rintro ⟨i, hi, rfl⟩
      have hkmem : pod_key i ∈ keysOf (group_issues issues) :=
        (mem_keysOf_group issues (pod_key i)).2 (List.mem_map.2 ⟨i, hi, rfl⟩)
      have hsome := (lookupG_isSome (group_issues issues) (pod_key i)).2 hkmem
      cases hlk : lookupG (group_issues issues) (pod_key i) with
      | none =>
        rw [hlk] at hsome
        cases hsome
      | some info =>
        have hmem : (pod_key i, info) ∈ group_issues issues := lookupG_mem _ _ _ hlk
        obtain ⟨i0, hi0, hkey0, hinfo0⟩ := group_entry_char issues (pod_key i, info) hmem
        have hpair : pairOf i0 = pairOf i := hinj i0 hi0 i hi hkey0
        refine ⟨(pod_key i, info), hmem, ?_⟩
        have hinfo0' : info =
            (⟨i0.«namespace», i0.pod_name, groupCpu issues (pod_key i),
              groupMem issues (pod_key i)⟩ : PodInfo) := hinfo0
        show (info.«namespace», info.pod_name) = pairOf i
        rw [hinfo0', ← hpair]
        rfl
  · intro pc hpc
    rcases List.mem_map.1 hpc with ⟨e, he, rfl⟩
    obtain ⟨i0, hi0, hkey, hinfo⟩ := group_entry_char issues e he
    have hinfo' : e.2 =
        (⟨i0.«namespace», i0.pod_name, groupCpu issues e.1, groupMem issues e.1⟩ :
          PodInfo) := hinfo
    have hcp : callPair (callOf e) = pairOf i0 := by
      show (e.2.«namespace», e.2.pod_name) = pairOf i0
      rw [hinfo']
      rfl
    have hor : (e.2.missing_cpu || e.2.missing_memory) = true :=
      group_entry_or issues hev e he
    cases hw : warning_value e.2.missing_cpu e.2.missing_memory with
    | none =>
      rw [warning_value_eq_none] at hw
      rw [hor] at hw
      cases hw
    | some v =>
      have hval : (callOf e).value = v := by
        unfold callOf
        rw [hw]
        rfl
      have hbool : ∀ j ∈ issues, decide (pairOf j = callPair (callOf e)) = (pod_key j == e.1) := by
        intro j hj
        have hiff : (pairOf j = pairOf i0) ↔ (pod_key j == e.1) = true := by
          rw [beq_iff_eq]
          constructor
          · intro hp
            rw [← hkey]
            show pod_key j = pod_key i0
            unfold pod_key
            rw [show j.«namespace» = i0.«namespace» from congrArg Prod.fst hp,
              show j.pod_name = i0.pod_name from congrArg Prod.snd hp]
          · intro hp
            exact hinj j hj i0 hi0 (hp.trans hkey.symm)
        rw [hcp]
        cases hd : decide (pairOf j = pairOf i0) with
        | true => exact (hiff.1 (of_decide_eq_true hd)).symm
        | false =>
          cases hb : (pod_key j == e.1) with
          | true => exact absurd (hiff.2 hb) (of_decide_eq_false hd)
          | false => rfl
      have hA : (issues.any fun j => decide (pairOf j = callPair (callOf e)) && j.missing_cpu_limit)
          = e.2.missing_cpu := by
        rw [hinfo']
        show _ = groupCpu issues e.1
        unfold groupCpu
        refine any_congr _ _ _ (fun j hj => ?_)
        rw [hbool j hj]
      have hB : (issues.any fun j => decide (pairOf j = callPair (callOf e)) && j.missing_memory_limit)
          = e.2.missing_memory := by
        rw [hinfo']
        show _ = groupMem issues e.1
        unfold groupMem
        refine any_congr _ _ _ (fun j hj => ?_)
        rw [hbool j hj]
      rw [hval, hA, hB, hw]

/-- Witness for C4 on the spec's scenario Findings: the patch calls
target exactly the one distinct pod. -/
theorem annotator_one_patch_per_pod_witness :
    (((annotate_pods_with_issues (fun _ _ => true) scenarioIssues).2).map callPair).toFinset
      = (scenarioIssues.map pairOf).toFinset :=
  (annotator_one_patch_per_pod (fun _ _ => true) scenarioIssues
    (by decide) (by decide)).2.1

/-- Counterexample to C4 as stated: two Findings with distinct
(namespace, pod_name) pairs whose grouping keys collide lead to a
single patch call, not one per distinct pair. -/
theorem annotator_one_patch_per_pod_counterexample :
    ((annotate_pods_with_issues (fun _ _ => true) slashIssues).2).length = 1 ∧
    ((slashIssues.map pairOf).toFinset).card = 2 := by
  decide

/-- C10: `annotate_pod` called with both booleans false performs no
patch call and returns false, and in the batch such a pod is counted as
a failure rather than raising or patching. -/
theorem annotate_pod_neither_missing (patchOk : String → String → Bool) (ns pn : String) :
    annotate_pod patchOk ns pn false false = (false, []) ∧
    (∀ i : ContainerLimitIssue, i.missing_cpu_limit = false → i.missing_memory_limit = false →
      annotate_pods_with_issues patchOk [i] = ((0, 1), [])) := by
  refine ⟨rfl, fun i h1 h2 => ?_⟩
  obtain ⟨ns0, pn0, cn0, mc, mm⟩ := i
  cases mc with
  | true => simp at h1
  | false =>
    cases mm with
    | true => simp at h2
    | false => rfl

/-- Witness for C10: a single both-false Finding yields zero successes,
one failure and no patch call. -/
theorem annotate_pod_neither_missing_witness :
    annotate_pods_with_issues (fun _ _ => true) [⟨"n1", "p1", "c1", false, false⟩]
      = ((0, 1), []) :=
  (annotate_pod_neither_missing (fun _ _ => true) "n1" "p1").2
    ⟨"n1", "p1", "c1", false, false⟩ rfl rfl

/-- C7 (amended): `main` returns 1 exactly when the in-cluster
credential path fails with a non-config error, or it fails with a
config error and the kubeconfig path also fails; in every other case —
zero findings, a listing failure, any number of per-pod annotation
failures — it returns 0. -/
theorem main_exit_code (env : Env) :
    ((main_run env).1 = 0 ∨ (main_run env).1 = 1) ∧
    ((main_run env).1 = 1 ↔
      env.incluster = LoadResult.otherErr ∨
        (env.incluster = LoadResult.configErr ∧ env.kubecfg ≠ LoadResult.ok)) := by
  obtain ⟨ic, kc, lr, po, an, out⟩ := env
  cases ic <;> cases kc <;> simp [main_run, connect]

/-- Counterexample to C7 as stated: when the in-cluster path fails with
an unexpected (non-config) error, `main` exits 1 even though the
kubeconfig path would succeed — so it is not true that exit 1 happens
only when both credential paths fail. -/
theorem main_exit_code_counterexample :
    (main_run ceEnv).1 = 1 ∧
    ¬(ceEnv.incluster ≠ LoadResult.ok ∧ ceEnv.kubecfg ≠ LoadResult.ok) :=
  ⟨rfl, fun h => h.2 rfl⟩

end PodChecker
